import Mathlib

/-!
Verification of the Reson8 audio engine (`src/utils/audioEngine.ts`).

JS numbers are modelled as exact rationals `ℚ`: every arithmetic operation the
claims depend on (clamping, scaling by powers of two, adding and subtracting
clock times, halving) is exact in binary floating point on the values involved,
so the rational model agrees with the double-precision source. Machine integer
writes (`DataView.setUint16`/`setUint32`/`setInt16`) are modelled on `Nat`/`ℤ`
with explicit reduction modulo `2^16`/`2^32`.
-/

namespace Reson8

/-- A decoded or rendered multichannel sample buffer, mirroring the host
`AudioBuffer`: sample rate in Hz, frame count (`AudioBuffer.length`), and one
float sample sequence per channel. -/
structure AudioData where
  sampleRate : Nat
  length : Nat
  channels : List (List ℚ)
  deriving DecidableEq, Repr

/-- The `AudioEffects` record from `src/types.ts`. -/
structure AudioEffects where
  pitch : ℚ
  echoDelay : ℚ
  echoFeedback : ℚ
  isReversed : Bool
  deriving DecidableEq, Repr

/-! ## Sample Encoder (`bufferToWave`, lines 216-256) -/

/-- Line 248: `Math.max(-1, Math.min(1, channels[i][pos]))` — clamp to [-1, 1]. -/
def clamp (x : ℚ) : ℚ := max (-1) (min 1 x)

/-- The JS `|0` coercion (`ToInt32`): truncation toward zero. All values it is
applied to in `bufferToWave` lie in [-32768, 32767], so no wrapping occurs. -/
def truncToward0 (q : ℚ) : ℤ := if q < 0 then -⌊-q⌋ else ⌊q⌋

/-- Line 249: `sample = (0.5 + sample < 0 ? sample * 32768 : sample * 32767)|0`.
By JS operator precedence the ternary condition is `(0.5 + sample) < 0`,
i.e. `sample < -0.5`; the product is then truncated toward zero by `|0`. -/
def sampleToInt16 (x : ℚ) : ℤ :=
  let s := clamp x
  truncToward0 (if 1/2 + s < 0 then s * 32768 else s * 32767)

/-- The sample conversion as the spec (§4.2) words it: clamp to [-1, 1], then
multiply negative values by 32768 and non-negative values by 32767
(integerised toward zero, the only step the spec leaves implicit). This
definition follows the spec's words and is compared against `sampleToInt16`,
which follows the source. -/
def specSampleToInt16 (x : ℚ) : ℤ :=
  let s := clamp x
  truncToward0 (if s < 0 then s * 32768 else s * 32767)

/-- `DataView.setUint16(pos, data, true)`: two little-endian bytes of
`data mod 2^16`. -/
def le16 (x : Nat) : List Nat := [x % 256, x / 256 % 256]

/-- `DataView.setUint32(pos, data, true)`: four little-endian bytes of
`data mod 2^32`. -/
def le32 (x : Nat) : List Nat :=
  [x % 256, x / 256 % 256, x / 65536 % 256, x / 16777216 % 256]

/-- `DataView.setInt16(pos, sample, true)`: two's complement representation,
written as two little-endian bytes. -/
def le16i (x : ℤ) : List Nat := le16 (x % 65536).toNat

/-- Lines 246-254: the interleaving loop, `pos` over frames and `i` over
channels, converting each sample. An out-of-range `channels[i][pos]` read
yields `undefined` in JS, which the clamp turns into `NaN` and `|0` into `0`;
`List.getD pos 0` composed with `sampleToInt16` yields the same `0`. -/
def interleave (channels : List (List ℚ)) (len : Nat) : List ℤ :=
  (List.range len).flatMap fun pos => channels.map fun ch => sampleToInt16 (ch.getD pos 0)

/-- Lines 216-256, `bufferToWave(abuffer, len)`: the sequential
`setUint32`/`setUint16` writes advance `pos`, so the output is the
concatenation below; when the data-chunk length is written `pos = 40`,
so `length - pos - 4` is `length - 40 - 4`. -/
def bufferToWave (abuffer : AudioData) (len : Nat) : List Nat :=
  let numOfChan := abuffer.channels.length
  let length := len * numOfChan * 2 + 44
  le32 0x46464952 ++
  le32 (length - 8) ++
  le32 0x45564157 ++
  le32 0x20746d66 ++
  le32 16 ++
  le16 1 ++
  le16 numOfChan ++
  le32 abuffer.sampleRate ++
  le32 (abuffer.sampleRate * 2 * numOfChan) ++
  le16 (numOfChan * 2) ++
  le16 16 ++
  le32 0x61746164 ++
  le32 (length - 40 - 4) ++
  (interleave abuffer.channels len).flatMap le16i

/-- Decode four little-endian bytes (the head of the list) into the 32-bit
value they spell; observer used to state the header-field claims. -/
def readLE32 : List Nat → Nat
  | b0 :: b1 :: b2 :: b3 :: _ => b0 + 256 * b1 + 65536 * b2 + 16777216 * b3
  | _ => 0

/-! ## Signal Graph Manager (`AudioEngine`, lines 3-213)

The engine is embedded as a state machine. Host `AudioBuffer`s are mutable
objects, so the model carries an explicit store (a list of `AudioData`) and
buffer references are indices into it; `cloneBuffer` allocates a fresh slot and
the in-place per-channel `Array.prototype.reverse` is a store update. Session
ids are model bookkeeping (the JS engine distinguishes sessions only through
closure identity of each `onended` handler).

The host dispatches a started source node's `ended` event whenever the node
stops playing — on reaching the end of its buffer AND on an explicit
`stop()` call — and the code arms the lines 124-128 handler on every node it
starts without ever detaching it. Each node stops at most once, so each
session's handler can fire at most once, but it does fire after the `stop()`
calls inside `stop`, `pause` and `play`'s implicit restart-stop. The model
carries this as an event queue: halting a node (by `stop`/`pause`/natural
completion) appends the node's session to `pendingEnded`; the separate
`deliverEnded` step models the host's asynchronous event delivery, running
the armed handler — for the current node or for an already halted or
replaced one, since the closure survives replacement. `endedFired` records
the sessions whose handler (and caller completion callback) has run. -/

/-- Placeholder `AudioData` used as the default of guarded store lookups;
every lookup the engine performs is at a live reference. -/
def emptyData : AudioData := { sampleRate := 0, length := 0, channels := [] }

/-- A host `AudioBufferSourceNode` as the engine uses one: the buffer it was
assigned (a store reference), its `detune.value`, the playback session that
created it, and whether it has been halted by `stop()`. -/
structure SourceNode where
  bufferRef : Nat
  detune : ℚ
  sessionId : Nat
  halted : Bool
  deriving DecidableEq, Repr

/-- The `AudioEngine`'s mutable fields (lines 4-16) plus the store of host
buffers, the session counter, the host's queue of pending `ended` events
(sessions whose node has stopped but whose armed handler has not run yet)
and the record of handler firings. -/
structure EngineState where
  store : List AudioData
  currentBuffer : Option Nat
  sourceNode : Option SourceNode
  delayTime : ℚ
  feedbackGain : ℚ
  startTime : ℚ
  pauseTime : ℚ
  isPlaying : Bool
  nextSessionId : Nat
  pendingEnded : List Nat
  endedFired : List Nat
  deriving DecidableEq

/-- The constructor (lines 18-37): no buffer, no source, offsets zero; the
fresh `DelayNode` has delay time 0 and the fresh feedback `GainNode` gain 1. -/
def initState : EngineState :=
  { store := [], currentBuffer := none, sourceNode := none, delayTime := 0,
    feedbackGain := 1, startTime := 0, pauseTime := 0, isPlaying := false,
    nextSessionId := 0, pendingEnded := [], endedFired := [] }

/-- `loadFile` (lines 47-52): the host decodes the bytes into a fresh
`AudioBuffer`, which becomes `currentBuffer`. -/
def loadFile (b : AudioData) (s : EngineState) : EngineState :=
  { s with store := s.store ++ [b], currentBuffer := some s.store.length }

/-- `cloneBuffer` (lines 78-88): `createBuffer` allocates a fresh buffer of
the same shape and `copyToChannel` copies every channel; the pair is the
updated store and the fresh reference. -/
def cloneBuffer (ref : Nat) (store : List AudioData) : List AudioData × Nat :=
  (store ++ [store.getD ref emptyData], store.length)

/-- Lines 64-66 and 182-184: the per-channel in-place
`Array.prototype.reverse.call(buffer.getChannelData(i))` loop reverses every
channel of the buffer. -/
def reverseChannels (b : AudioData) : AudioData :=
  { b with channels := b.channels.map List.reverse }

/-- Engine errors: `"No buffer loaded"` (line 55) and
`"No audio to export"` (line 165). -/
inductive EngineError where
  | noBufferLoaded
  | noAudioToExport
  deriving DecidableEq, Repr

/-- `createSource` (lines 54-76): throws when no buffer is loaded; when
`effects.isReversed` it clones the current buffer and reverses the clone's
channels in place (a `List.set` on the store), otherwise the node aliases the
current buffer; `detune.value` is set to `effects.pitch`. The fresh node is
tagged with the next session id. -/
def createSource (s : EngineState) (effects : AudioEffects) :
    Except EngineError (List AudioData × SourceNode) :=
  match s.currentBuffer with
  | none => .error .noBufferLoaded
  | some ref =>
    if effects.isReversed then
      let p := cloneBuffer ref s.store
      let store2 := p.1.set p.2 (reverseChannels (p.1.getD p.2 emptyData))
      .ok (store2,
        { bufferRef := p.2, detune := effects.pitch,
          sessionId := s.nextSessionId, halted := false })
    else
      .ok (s.store,
        { bufferRef := ref, detune := effects.pitch,
          sessionId := s.nextSessionId, halted := false })

/-- The host `AudioBufferSourceNode.stop()` call: halts the node, or throws
when the node is already halted — the condition the engine's `stop` comment
(line 144) calls "already stopped" and swallows. -/
def haltNode (n : SourceNode) : Except Unit SourceNode :=
  if n.halted then .error () else .ok { n with halted := true }

/-- `stop` (lines 139-149): if a source exists, halt it, ignoring the
exception from a source that is already halted; then unconditionally reset
`pauseTime` to zero and clear the running flag. Successfully halting a
playing node makes the host schedule that node's `ended` event: its session
joins `pendingEnded`, to be delivered later by `deliverEnded`. -/
def stop (s : EngineState) : EngineState :=
  let s2 :=
    match s.sourceNode with
    | some n =>
      match haltNode n with
      | .ok n2 => { s with sourceNode := some n2,
                           pendingEnded := s.pendingEnded ++ [n.sessionId] }
      | .error _ => s
    | none => s
  { s2 with pauseTime := 0, isPlaying := false }

/-- Lines 92-128 of `play`, after the initial `if (this.isPlaying) this.stop()`:
return unchanged when no buffer is loaded; otherwise create the source
(which cannot fail here), set `delayTime.value` and feedback `gain.value`,
wire the graph, record `startTime = now - pauseTime` and start the source at
offset `pauseTime`, set the running flag, and arm the `onended` handler for
the new session. -/
def playBody (now : ℚ) (effects : AudioEffects) (s : EngineState) : EngineState :=
  match s.currentBuffer with
  | none => s
  | some _ =>
    match createSource s effects with
    | .error _ => s
    | .ok (store2, node) =>
      { s with
        store := store2,
        sourceNode := some node,
        delayTime := effects.echoDelay,
        feedbackGain := effects.echoFeedback,
        startTime := now - s.pauseTime,
        isPlaying := true,
        nextSessionId := s.nextSessionId + 1 }

/-- `play` (lines 90-129): `if (this.isPlaying) this.stop();` then the body.
`now` is the host clock's `audioContext.currentTime`. -/
def play (now : ℚ) (effects : AudioEffects) (s : EngineState) : EngineState :=
  playBody now effects (if s.isPlaying then stop s else s)

/-- `pause` (lines 131-137): when a source exists and the engine is running,
halt the source, freeze `pauseTime = now - startTime` and clear the running
flag; an exception from halting an already-halted node would propagate and
leave the state unchanged. No-op otherwise. The halted node's `ended` event
is scheduled by the host exactly as in `stop`. -/
def pause (now : ℚ) (s : EngineState) : EngineState :=
  match s.sourceNode with
  | some n =>
    if s.isPlaying then
      match haltNode n with
      | .ok n2 =>
        { s with sourceNode := some n2,
                 pendingEnded := s.pendingEnded ++ [n.sessionId],
                 pauseTime := now - s.startTime, isPlaying := false }
      | .error _ => s
    else s
  | none => s

/-- The host side of natural completion: a playing, not-yet-halted source
reaches the end of its buffer. The node stops (it can no longer be stopped
again without the "already stopped" condition) and its `ended` event is
scheduled; the engine's own fields do not change until the armed handler is
delivered. -/
def naturalEnd (s : EngineState) : EngineState :=
  match s.sourceNode with
  | some n =>
    if s.isPlaying && !n.halted then
      { s with sourceNode := some { n with halted := true },
               pendingEnded := s.pendingEnded ++ [n.sessionId] }
    else s
  | none => s

/-- The host delivers the oldest pending `ended` event, running the armed
`onended` handler of lines 124-128 for that node's session — whether the
node is the current one, was halted by `stop()`/`pause()`, or has since been
replaced (the closure survives replacement): clear the running flag, reset
`pauseTime` to zero and invoke the caller's completion callback (recorded in
`endedFired`). No-op when no event is pending. -/
def deliverEnded (s : EngineState) : EngineState :=
  match s.pendingEnded with
  | [] => s
  | sid :: rest =>
    { s with isPlaying := false, pauseTime := 0,
             pendingEnded := rest, endedFired := sid :: s.endedFired }

/-- The events the engine reacts to: the public operations the claims touch,
the host's natural-completion of the playing source, and the host's
asynchronous delivery of a pending `ended` event. -/
inductive Event where
  | load (b : AudioData)
  | play (now : ℚ) (effects : AudioEffects)
  | pause (now : ℚ)
  | stop
  | naturalEnd
  | deliverEnded

/-- Apply one event to the engine state. -/
def step (e : Event) (s : EngineState) : EngineState :=
  match e with
  | .load b => loadFile b s
  | .play now effects => play now effects s
  | .pause now => pause now s
  | .stop => stop s
  | .naturalEnd => naturalEnd s
  | .deliverEnded => deliverEnded s

/-- Apply a sequence of events in order. -/
def run (es : List Event) (s : EngineState) : EngineState :=
  es.foldl (fun s e => step e s) s

/-- The state predicate guarding C9: fired session ids are distinct and
below the session counter, the live node's session id is below the counter,
a running engine holds an unhalted node whose completion callback has not
fired, and an engine with no loaded buffer is not running. It holds at
`initState`, and on every reachable state of an engine that has not loaded a
buffer it follows from the reachability invariant `invReach` below — which
is what C9 needs, since `currentBuffer` can never return to `none` once a
buffer is loaded. -/
def inv (s : EngineState) : Prop :=
  s.endedFired.Nodup ∧
  (∀ j ∈ s.endedFired, j < s.nextSessionId) ∧
  (match s.sourceNode with
   | some n => n.sessionId < s.nextSessionId
   | none => True) ∧
  (s.isPlaying = true →
    match s.sourceNode with
    | some n => n.halted = false ∧ n.sessionId ∉ s.endedFired
    | none => False) ∧
  (s.currentBuffer = none → s.isPlaying = false)

/-- Invariant of every reachable engine state under the host event
semantics: pending and fired sessions are pairwise distinct and below the
session counter; the live node's session is below the counter and, while the
node is unhalted, its one-shot `ended` event is neither pending nor fired;
a running engine holds a node; and an engine that never loaded a buffer
holds no node and has no pending events. -/
def invReach (s : EngineState) : Prop :=
  (s.pendingEnded ++ s.endedFired).Nodup ∧
  (∀ j ∈ s.pendingEnded ++ s.endedFired, j < s.nextSessionId) ∧
  (match s.sourceNode with
   | some n => n.sessionId < s.nextSessionId ∧
       (n.halted = false →
         n.sessionId ∉ s.pendingEnded ∧ n.sessionId ∉ s.endedFired)
   | none => True) ∧
  (s.isPlaying = true → s.sourceNode ≠ none) ∧
  (s.currentBuffer = none →
    s.isPlaying = false ∧ s.sourceNode = none ∧ s.pendingEnded = [])

/-- The parameters `exportAudio` (lines 164-174) hands to the
`OfflineAudioContext` constructor: channel count, frame count
(`duration * sampleRate`, exact on the values involved) and sample rate. -/
structure OfflineCtxSpec where
  numberOfChannels : Nat
  length : ℚ
  sampleRate : Nat
  deriving DecidableEq, Repr

/-- `AudioBuffer.duration`: frame count over sample rate, in seconds. -/
def AudioData.duration (b : AudioData) : ℚ := (b.length : ℚ) / (b.sampleRate : ℚ)

/-- Lines 164-174 of `exportAudio`: throw when nothing is loaded, otherwise
size the offline context to
`duration = currentBuffer.duration + (echoFeedback > 0 ? 3 : 0)` seconds at
the source's channel count and sample rate. -/
def exportCtx (s : EngineState) (effects : AudioEffects) :
    Except EngineError OfflineCtxSpec :=
  match s.currentBuffer with
  | none => .error .noAudioToExport
  | some ref =>
    let b := s.store.getD ref emptyData
    let duration := b.duration + (if effects.echoFeedback > 0 then 3 else 0)
    .ok { numberOfChannels := b.channels.length,
          length := duration * (b.sampleRate : ℚ),
          sampleRate := b.sampleRate }

/-- Lines 177-188 of `exportAudio`: derive the buffer the offline source
plays — when `effects.isReversed`, clone the current buffer and reverse the
clone's channels in place, exactly as in `createSource`; otherwise alias the
current buffer. Returns the updated store and the reference played. -/
def exportSourceBuffer (s : EngineState) (effects : AudioEffects) :
    Except EngineError (List AudioData × Nat) :=
  match s.currentBuffer with
  | none => .error .noAudioToExport
  | some ref =>
    if effects.isReversed then
      let p := cloneBuffer ref s.store
      .ok (p.1.set p.2 (reverseChannels (p.1.getD p.2 emptyData)), p.2)
    else
      .ok (s.store, ref)

/-! ## Concrete instances used in scenarios and witnesses -/

/-- The single-channel 4-frame buffer of the spec's encoder scenario:
samples `[1.0, -1.0, 0.0, 0.5]` at sample rate 8000. -/
def c2Input : AudioData :=
  { sampleRate := 8000, length := 4, channels := [[1, -1, 0, 1/2]] }

/-- Effects with all controls at rest. -/
def restEffects : AudioEffects :=
  { pitch := 0, echoDelay := 0, echoFeedback := 0, isReversed := false }

/-- Effects with only the reversal flag set. -/
def reversedEffects : AudioEffects :=
  { pitch := 0, echoDelay := 0, echoFeedback := 0, isReversed := true }

/-- Effects with echo feedback 0.5 and everything else at rest, as in the
spec's export scenario. -/
def exportEffects : AudioEffects :=
  { pitch := 0, echoDelay := 0, echoFeedback := 1/2, isReversed := false }

/-- A 2-second silent mono track at 8000 Hz. -/
def track2s : AudioData :=
  { sampleRate := 8000, length := 16000, channels := [List.replicate 16000 0] }

/-- A fresh engine that has loaded one buffer. -/
def sLoaded : EngineState := loadFile c2Input initState

/-- A fresh engine that has loaded the 2-second track. -/
def sLoaded2s : EngineState := loadFile track2s initState

/-- The loaded engine after `play` at clock time 0: it holds one live,
unhalted source node. -/
def sPlaying : EngineState := play 0 restEffects sLoaded

/-! ## Helper lemmas about the sample conversion -/

lemma clamp_of_mem {x : ℚ} (h1 : -1 ≤ x) (h2 : x ≤ 1) : clamp x = x := by
  rw [clamp, min_eq_right h2, max_eq_right h1]

lemma clamp_lower (x : ℚ) : -1 ≤ clamp x := le_max_left _ _

lemma clamp_upper (x : ℚ) : clamp x ≤ 1 := max_le (by norm_num) (min_le_left _ _)

lemma truncToward0_bounds {q : ℚ} {m M : ℤ} (h1 : (m : ℚ) ≤ q) (h2 : q ≤ (M : ℚ))
    (hm : m ≤ 0) (hM : 0 ≤ M) : m ≤ truncToward0 q ∧ truncToward0 q ≤ M := by
  rw [truncToward0]
  split
  · rename_i hq
    have hfl : ⌊-q⌋ ≤ -m := by
      have h := Int.floor_mono (show -q ≤ ((-m : ℤ) : ℚ) by push_cast; linarith)
      simpa using h
    have hnn : 0 ≤ ⌊-q⌋ := Int.floor_nonneg.mpr (by linarith)
    omega
  · rename_i hq
    push_neg at hq
    have hfl : ⌊q⌋ ≤ M := by
      have h := Int.floor_mono (show q ≤ ((M : ℤ) : ℚ) by exact_mod_cast h2)
      simpa using h
    have hnn : 0 ≤ ⌊q⌋ := Int.floor_nonneg.mpr hq
    omega

lemma sampleToInt16_one : sampleToInt16 1 = 32767 := by
  rw [sampleToInt16, clamp_of_mem (by norm_num) (by norm_num)]
  norm_num [truncToward0]

lemma sampleToInt16_negOne : sampleToInt16 (-1) = -32768 := by
  rw [sampleToInt16, clamp_of_mem (by norm_num) (by norm_num)]
  norm_num [truncToward0]

lemma sampleToInt16_zero : sampleToInt16 0 = 0 := by
  rw [sampleToInt16, clamp_of_mem (by norm_num) (by norm_num)]
  norm_num [truncToward0]

lemma sampleToInt16_half : sampleToInt16 ((2 : ℚ)⁻¹) = 16383 := by
  rw [sampleToInt16, clamp_of_mem (by norm_num) (by norm_num)]
  norm_num [truncToward0]

lemma bufferToWave_c2Input_eval : bufferToWave c2Input 4 =
    [0x52, 0x49, 0x46, 0x46, 44, 0, 0, 0, 0x57, 0x41, 0x56, 0x45,
     0x66, 0x6D, 0x74, 0x20, 16, 0, 0, 0, 1, 0, 1, 0,
     0x40, 0x1F, 0, 0, 0x80, 0x3E, 0, 0, 2, 0, 16, 0,
     0x64, 0x61, 0x74, 0x61, 8, 0, 0, 0,
     0xFF, 0x7F, 0x00, 0x80, 0x00, 0x00, 0xFF, 0x3F] := by
  simp [bufferToWave, c2Input, interleave, le32, le16, le16i, List.range_succ,
    sampleToInt16_one, sampleToInt16_negOne, sampleToInt16_zero, sampleToInt16_half]

/-! ## Claim C1 -/

/-- C1 counterexample: at the float sample -1/4 the clamped value is negative,
so the claimed rule multiplies it by 32768, giving exactly the integer -8192;
but the encoder of the source converts -1/4 to -8191 (it scales values of
[-1/2, 0) by 32767 and truncates toward zero), and the refinement definition
taken from the spec's words gives -8192. The claim is false at -1/4. -/
theorem c1_counterexample :
    clamp (-(1/4)) < 0 ∧
    clamp (-(1/4)) * 32768 = -8192 ∧
    sampleToInt16 (-(1/4)) = -8191 ∧
    specSampleToInt16 (-(1/4)) = -8192 := by
  have hc : clamp (-(1/4)) = -(1/4) := clamp_of_mem (by norm_num) (by norm_num)
  refine ⟨by rw [hc]; norm_num, by rw [hc]; norm_num, ?_, ?_⟩
  · rw [sampleToInt16, hc]; norm_num [truncToward0]
  · rw [specSampleToInt16, hc]; norm_num [truncToward0]

/-- C1 amended: the Sample Encoder clamps each float sample to [-1, 1] and
converts it to a 16-bit signed integer asymmetrically with the threshold at
-1/2, not at 0: clamped values strictly below -1/2 are multiplied by 32768
and all clamped values at or above -1/2 (including the negative ones in
[-1/2, 0)) are multiplied by 32767, the product being truncated toward zero;
exactly -1 still maps to -32768, and every result fits in
[-32768, 32767]. -/
theorem c1_scaling_amended (x : ℚ) :
    (clamp x < -(1/2) → sampleToInt16 x = truncToward0 (clamp x * 32768)) ∧
    (-(1/2) ≤ clamp x → sampleToInt16 x = truncToward0 (clamp x * 32767)) ∧
    sampleToInt16 (-1) = -32768 ∧
    -32768 ≤ sampleToInt16 x ∧ sampleToInt16 x ≤ 32767 := by
  have hl := clamp_lower x
  have hu := clamp_upper x
  refine ⟨fun h => ?_, fun h => ?_, sampleToInt16_negOne, ?_⟩
  · rw [sampleToInt16, if_pos (by linarith)]
  · rw [sampleToInt16, if_neg (by linarith)]
  · rw [sampleToInt16]
    split
    · rename_i h
      exact truncToward0_bounds (by push_cast; linarith) (by push_cast; nlinarith)
        (by norm_num) (by norm_num)
    · rename_i h
      exact truncToward0_bounds (by push_cast; linarith) (by push_cast; nlinarith)
        (by norm_num) (by norm_num)

/-- Witness for C1 amended at the concrete sample -3/4: the clamped value is
below -1/2 and the encoder scales it by 32768. -/
theorem c1_scaling_amended_witness :
    clamp (-(3/4)) < -(1/2) ∧
    sampleToInt16 (-(3/4)) = truncToward0 (clamp (-(3/4)) * 32768) := by
  have hc : clamp (-(3/4)) < -(1/2) := by
    rw [clamp_of_mem (by norm_num) (by norm_num)]; norm_num
  exact ⟨hc, (c1_scaling_amended (-(3/4))).1 hc⟩

/-! ## Claim C2 -/

/-- C2 counterexample: encoding the 4-frame single-channel buffer
`[1.0, -1.0, 0.0, 0.5]` at 8000 Hz does not produce the claimed payload
words `[0x7FFF, 0x8000, 0x0000, 0x4000]`: the sample 0.5 is scaled by 32767
and truncated to 0x3FFF, so the final little-endian word differs. -/
theorem c2_counterexample :
    bufferToWave c2Input 4 ≠
      [0x52, 0x49, 0x46, 0x46, 44, 0, 0, 0, 0x57, 0x41, 0x56, 0x45,
       0x66, 0x6D, 0x74, 0x20, 16, 0, 0, 0, 1, 0, 1, 0,
       0x40, 0x1F, 0, 0, 0x80, 0x3E, 0, 0, 2, 0, 16, 0,
       0x64, 0x61, 0x74, 0x61, 8, 0, 0, 0] ++
      [0xFF, 0x7F, 0x00, 0x80, 0x00, 0x00, 0x00, 0x40] := by
  rw [bufferToWave_c2Input_eval]
  decide

/-- C2 amended: the same scenario produces the claimed 44-byte header
(RIFF length 44, channel count 1, sample rate 8000, byte rate 16000, block
align 2, bits per sample 16, data length 8) followed by exactly 8 payload
bytes, but the little-endian words are `[0x7FFF, 0x8000, 0x0000, 0x3FFF]`:
0.5 encodes to 0x3FFF, not 0x4000. -/
theorem c2_encoding_amended :
    bufferToWave c2Input 4 =
      [0x52, 0x49, 0x46, 0x46, 44, 0, 0, 0, 0x57, 0x41, 0x56, 0x45,
       0x66, 0x6D, 0x74, 0x20, 16, 0, 0, 0, 1, 0, 1, 0,
       0x40, 0x1F, 0, 0, 0x80, 0x3E, 0, 0, 2, 0, 16, 0,
       0x64, 0x61, 0x74, 0x61, 8, 0, 0, 0] ++
      [0xFF, 0x7F, 0x00, 0x80, 0x00, 0x00, 0xFF, 0x3F] := by
  rw [bufferToWave_c2Input_eval]
  decide

/-! ## Claim C10 -/

lemma flatMap_length_const {α β : Type} (f : α → List β) (k : Nat)
    (h : ∀ a, (f a).length = k) : ∀ l : List α, (l.flatMap f).length = l.length * k
  | [] => by simp
  | a :: l => by
    simp [List.flatMap_cons, h, flatMap_length_const f k h l, Nat.succ_mul, Nat.add_comm]

lemma interleave_length (chs : List (List ℚ)) (len : Nat) :
    (interleave chs len).length = len * chs.length := by
  rw [interleave, flatMap_length_const _ chs.length (fun pos => by simp), List.length_range]

lemma payload_length (chs : List (List ℚ)) (len : Nat) :
    ((interleave chs len).flatMap le16i).length = len * chs.length * 2 := by
  rw [flatMap_length_const le16i 2 (fun _ => rfl), interleave_length]

lemma readLE32_le32 (x : Nat) (rest : List Nat) (h : x < 4294967296) :
    readLE32 (le32 x ++ rest) = x := by
  simp only [le32, List.cons_append, List.nil_append, readLE32]
  omega

lemma bufferToWave_assoc (r : AudioData) (len : Nat) :
    bufferToWave r len =
      le32 0x46464952 ++
      (le32 (len * r.channels.length * 2 + 44 - 8) ++
      (le32 0x45564157 ++ (le32 0x20746D66 ++ (le32 16 ++ (le16 1 ++
      (le16 r.channels.length ++ (le32 r.sampleRate ++
      (le32 (r.sampleRate * 2 * r.channels.length) ++
      (le16 (r.channels.length * 2) ++ (le16 16 ++ (le32 0x61746164 ++
      (le32 (len * r.channels.length * 2 + 44 - 40 - 4) ++
      (interleave r.channels len).flatMap le16i)))))))))))) := by
  simp [bufferToWave, List.append_assoc]

/-- C10: for every rendered buffer and frame count, the encoded container is
exactly `44 + frames * channels * 2` bytes long, the RIFF length field at
byte offset 4 holds that total minus 8, and the data-chunk length field at
byte offset 40 holds `frames * channels * 2` (the payload byte count); the
two 32-bit fields are read back from the byte stream. The hypothesis keeps
the declared lengths inside the 32-bit fields the WAV header stores them
in. -/
theorem c10_container_layout (r : AudioData) (len : Nat)
    (h : len * r.channels.length * 2 + 36 < 4294967296) :
    (bufferToWave r len).length = 44 + len * r.channels.length * 2 ∧
    readLE32 ((bufferToWave r len).drop 4) = (44 + len * r.channels.length * 2) - 8 ∧
    readLE32 ((bufferToWave r len).drop 40) = len * r.channels.length * 2 := by
  refine ⟨?_, ?_, ?_⟩
  · rw [bufferToWave_assoc]
    simp only [List.length_append, payload_length, le32, le16, List.length_cons,
      List.length_nil]
    omega
  · rw [bufferToWave_assoc, List.drop_left' (show (le32 0x46464952).length = 4 from rfl),
      readLE32_le32 _ _ (by omega)]
    omega
  · have hsplit : bufferToWave r len =
        (le32 0x46464952 ++ le32 (len * r.channels.length * 2 + 44 - 8) ++ le32 0x45564157 ++
         le32 0x20746D66 ++ le32 16 ++ le16 1 ++ le16 r.channels.length ++ le32 r.sampleRate ++
         le32 (r.sampleRate * 2 * r.channels.length) ++ le16 (r.channels.length * 2) ++ le16 16 ++
         le32 0x61746164) ++
        (le32 (len * r.channels.length * 2 + 44 - 40 - 4) ++
          (interleave r.channels len).flatMap le16i) := by
      simp [bufferToWave, List.append_assoc]
    rw [hsplit, List.drop_left' (by simp [le32, le16]),
      readLE32_le32 _ _ (by omega)]
    omega

/-- Witness for C10 at the concrete 4-frame single-channel buffer. -/
theorem c10_container_layout_witness :
    (bufferToWave c2Input 4).length = 44 + 4 * c2Input.channels.length * 2 ∧
    readLE32 ((bufferToWave c2Input 4).drop 4) = (44 + 4 * c2Input.channels.length * 2) - 8 ∧
    readLE32 ((bufferToWave c2Input 4).drop 40) = 4 * c2Input.channels.length * 2 :=
  c10_container_layout c2Input 4 (by decide)

/-! ## Helper lemmas about the engine state machine -/

lemma stop_sourceNode (s : EngineState) :
    (stop s).sourceNode = s.sourceNode.map fun n => { n with halted := true } := by
  rcases hsn : s.sourceNode with _ | ⟨br, dt, sid, h⟩
  · simp [stop, hsn]
  · cases h <;> simp [stop, haltNode, hsn]

lemma stop_store (s : EngineState) : (stop s).store = s.store := by
  rcases hsn : s.sourceNode with _ | n
  · simp [stop, hsn]
  · rcases h : haltNode n with _ | n2 <;> simp [stop, hsn, h]

lemma stop_currentBuffer (s : EngineState) : (stop s).currentBuffer = s.currentBuffer := by
  rcases hsn : s.sourceNode with _ | n
  · simp [stop, hsn]
  · rcases h : haltNode n with _ | n2 <;> simp [stop, hsn, h]

lemma stop_nextSessionId (s : EngineState) : (stop s).nextSessionId = s.nextSessionId := by
  rcases hsn : s.sourceNode with _ | n
  · simp [stop, hsn]
  · rcases h : haltNode n with _ | n2 <;> simp [stop, hsn, h]

lemma stop_endedFired (s : EngineState) : (stop s).endedFired = s.endedFired := by
  rcases hsn : s.sourceNode with _ | n
  · simp [stop, hsn]
  · rcases h : haltNode n with _ | n2 <;> simp [stop, hsn, h]

lemma stop_pauseTime (s : EngineState) : (stop s).pauseTime = 0 := rfl

lemma stop_isPlaying (s : EngineState) : (stop s).isPlaying = false := rfl

lemma createSource_some (s : EngineState) (e : AudioEffects) (ref : Nat)
    (hcur : s.currentBuffer = some ref) :
    createSource s e = Except.ok
      ((if e.isReversed
        then (s.store ++ [s.store.getD ref emptyData]).set s.store.length
               (reverseChannels (s.store.getD ref emptyData))
        else s.store),
       { bufferRef := if e.isReversed then s.store.length else ref,
         detune := e.pitch, sessionId := s.nextSessionId, halted := false }) := by
  cases hrev : e.isReversed <;>
    simp [createSource, hcur, hrev, cloneBuffer, List.getD_eq_getElem?_getD,
      List.getElem?_concat_length]

lemma playBody_none (now : ℚ) (e : AudioEffects) (s : EngineState)
    (hcur : s.currentBuffer = none) : playBody now e s = s := by
  simp [playBody, hcur]

lemma playBody_some (now : ℚ) (e : AudioEffects) (s : EngineState) (ref : Nat)
    (hcur : s.currentBuffer = some ref) :
    playBody now e s =
      { s with
        store := if e.isReversed
          then (s.store ++ [s.store.getD ref emptyData]).set s.store.length
                 (reverseChannels (s.store.getD ref emptyData))
          else s.store,
        sourceNode := some
          { bufferRef := if e.isReversed then s.store.length else ref,
            detune := e.pitch, sessionId := s.nextSessionId, halted := false },
        delayTime := e.echoDelay,
        feedbackGain := e.echoFeedback,
        startTime := now - s.pauseTime,
        isPlaying := true,
        nextSessionId := s.nextSessionId + 1 } := by
  simp [playBody, hcur, createSource_some s e ref hcur]

lemma play_of_playing (now : ℚ) (e : AudioEffects) (s : EngineState)
    (h : s.isPlaying = true) : play now e s = playBody now e (stop s) := by
  rw [play, if_pos h]

lemma play_of_not_playing (now : ℚ) (e : AudioEffects) (s : EngineState)
    (h : s.isPlaying = false) : play now e s = playBody now e s := by
  rw [play, h]
  simp

lemma pause_running (now : ℚ) (s : EngineState) (n : SourceNode)
    (hsn : s.sourceNode = some n) (hp : s.isPlaying = true) (hh : n.halted = false) :
    pause now s =
      { s with sourceNode := some { n with halted := true },
               pendingEnded := s.pendingEnded ++ [n.sessionId],
               pauseTime := now - s.startTime, isPlaying := false } := by
  simp [pause, hsn, hp, haltNode, hh]

/-! ## Claim C6 -/

/-- C6: the per-channel reversal the engine performs (clone, then reverse
every channel in place) is an involution on the sample data: applying it
twice reproduces the original sample sequence exactly, for every channel. -/
theorem c6_reverse_involutive (b : AudioData) :
    reverseChannels (reverseChannels b) = b := by
  cases b with
  | mk sr len chs => simp [reverseChannels, List.map_map, Function.comp]

/-! ## Claim C8 -/

/-- C8: calling `stop` twice in a row from any engine state raises nothing
(the model's `stop` is a total function; the host-level halt of the already
halted node returns the "already stopped" error, which `stop` swallows),
leaves the cumulative offset at zero and the running flag cleared after each
of the two calls, and the second call does not change the state at all. -/
theorem c8_double_stop (s : EngineState) :
    (stop s).pauseTime = 0 ∧ (stop s).isPlaying = false ∧
    (stop (stop s)).pauseTime = 0 ∧ (stop (stop s)).isPlaying = false ∧
    stop (stop s) = stop s ∧
    (∀ n, (stop s).sourceNode = some n → haltNode n = Except.error ()) := by
  refine ⟨stop_pauseTime s, stop_isPlaying s, stop_pauseTime _, stop_isPlaying _, ?_, ?_⟩
  · rcases hsn : s.sourceNode with _ | ⟨br, dt, sid, h⟩
    · simp [stop, hsn]
    · cases h <;> simp [stop, haltNode, hsn]
  · intro n hn
    rw [stop_sourceNode s] at hn
    rcases hsn : s.sourceNode with _ | m <;> rw [hsn] at hn
    · simp at hn
    · simp at hn
      rw [← hn]
      simp [haltNode]

/-- Witness for C8: the engine that is playing one session holds an unhalted
node; after the first `stop` the node is halted and the host-level halt on it
is the swallowed "already stopped" error. -/
theorem c8_double_stop_witness :
    haltNode { bufferRef := 0, detune := 0, sessionId := 0, halted := true } =
      Except.error () := by
  refine (c8_double_stop sPlaying).2.2.2.2.2 _ ?_
  rfl

/-! ## Claim C5 -/

/-- C5: for every loaded source, `renderOffline` sizes the offline context so
that the rendered duration (frame count over sample rate) is the source
duration plus 3 seconds when the echo feedback is strictly positive and
exactly the source duration when the feedback is 0; a 2-second source with
feedback 1/2 renders 5 seconds, always at the source's sample rate and
channel count. -/
theorem c5_render_sizing (s : EngineState) (ref : Nat) (b : AudioData)
    (e : AudioEffects) (hcur : s.currentBuffer = some ref)
    (hbuf : s.store.getD ref emptyData = b) (hsr : 0 < b.sampleRate) :
    ∃ ctx, exportCtx s e = Except.ok ctx ∧
      ctx.sampleRate = b.sampleRate ∧
      ctx.numberOfChannels = b.channels.length ∧
      (0 < e.echoFeedback → ctx.length / (b.sampleRate : ℚ) = b.duration + 3) ∧
      (e.echoFeedback = 0 → ctx.length / (b.sampleRate : ℚ) = b.duration) ∧
      (b.duration = 2 ∧ e.echoFeedback = 1/2 →
        ctx.length / (b.sampleRate : ℚ) = 5) := by
  have hne : ((b.sampleRate : ℚ)) ≠ 0 := Nat.cast_ne_zero.mpr hsr.ne'
  refine ⟨{ numberOfChannels := b.channels.length,
            length := (b.duration + if e.echoFeedback > 0 then 3 else 0) *
              (b.sampleRate : ℚ),
            sampleRate := b.sampleRate },
          by simp only [exportCtx, hcur, hbuf], rfl, rfl, ?_, ?_, ?_⟩
  · intro h
    rw [if_pos h, mul_div_cancel_right₀ _ hne]
  · intro h
    rw [if_neg (by rw [h]; exact lt_irrefl 0), add_zero, mul_div_cancel_right₀ _ hne]
  · rintro ⟨hd, hf⟩
    rw [if_pos (by rw [hf]; norm_num), mul_div_cancel_right₀ _ hne, hd]
    norm_num

/-- Witness for C5 on the 2-second track with echo feedback 1/2. -/
theorem c5_render_sizing_witness :
    ∃ ctx, exportCtx sLoaded2s exportEffects = Except.ok ctx ∧
      ctx.sampleRate = track2s.sampleRate ∧
      ctx.numberOfChannels = track2s.channels.length ∧
      (0 < exportEffects.echoFeedback →
        ctx.length / (track2s.sampleRate : ℚ) = track2s.duration + 3) ∧
      (exportEffects.echoFeedback = 0 →
        ctx.length / (track2s.sampleRate : ℚ) = track2s.duration) ∧
      (track2s.duration = 2 ∧ exportEffects.echoFeedback = 1/2 →
        ctx.length / (track2s.sampleRate : ℚ) = 5) :=
  c5_render_sizing sLoaded2s 0 track2s exportEffects rfl rfl (by decide)

/-! ## Claim C9 -/

lemma inv_init : inv initState := by
  simp [inv, initState]

/-- C9: when no buffer is loaded, `renderOffline` fails with the distinct
no-source error and `play` returns with the engine state unchanged. The
`inv` hypothesis restricts to reachable states (an unloaded engine is never
running): it holds at `initState`, and on every reachable unloaded state it
follows from the preserved invariant `invReach` via `invReach_unloaded_inv`
below. -/
theorem c9_unloaded_guards (s : EngineState) (h : inv s)
    (hnone : s.currentBuffer = none) (now : ℚ) (e : AudioEffects) :
    play now e s = s ∧
    exportCtx s e = Except.error EngineError.noAudioToExport := by
  constructor
  · rw [play_of_not_playing now e s (h.2.2.2.2 hnone), playBody_none now e s hnone]
  · simp [exportCtx, hnone]

/-- Witness for C9 at the freshly constructed engine. -/
theorem c9_unloaded_guards_witness :
    play 0 restEffects initState = initState ∧
    exportCtx initState restEffects = Except.error EngineError.noAudioToExport :=
  c9_unloaded_guards initState inv_init rfl 0 restEffects

/-! ## Claim C7 -/

lemma clone_set_preserves {α : Type} (store : List α) (x y : α) (i : Nat)
    (h : i < store.length) :
    ((store ++ [x]).set store.length y)[i]? = store[i]? := by
  rw [List.getElem?_set_ne (Nat.ne_of_gt h), List.getElem?_append_left h]

lemma clone_set_self {α : Type} (store : List α) (x y : α) :
    ((store ++ [x]).set store.length y)[store.length]? = some y := by
  rw [List.getElem?_set_self (by simp)]

/-- C7: whenever `play` or `renderOffline` derives the buffer to play with
the reversed flag set, it works on a fresh copy: the canonical buffer's slot
in the store is unchanged by the operation (for any flag value), and under
reversal the node plays a different slot holding the channel-reversed copy
of the canonical data. -/
theorem c7_reversal_nonmutating (s : EngineState) (ref : Nat)
    (hcur : s.currentBuffer = some ref) (href : ref < s.store.length)
    (now : ℚ) (e : AudioEffects) :
    (play now e s).store[ref]? = s.store[ref]? ∧
    (∀ st r2, exportSourceBuffer s e = Except.ok (st, r2) →
      st[ref]? = s.store[ref]?) ∧
    (e.isReversed = true →
      ∃ n, (play now e s).sourceNode = some n ∧ n.bufferRef ≠ ref ∧
        (play now e s).store[n.bufferRef]? =
          some (reverseChannels (s.store.getD ref emptyData))) := by
  have key : ∀ t : EngineState, t.store = s.store → t.currentBuffer = some ref →
      (playBody now e t).store[ref]? = s.store[ref]? ∧
      (e.isReversed = true →
        ∃ n, (playBody now e t).sourceNode = some n ∧ n.bufferRef ≠ ref ∧
          (playBody now e t).store[n.bufferRef]? =
            some (reverseChannels (s.store.getD ref emptyData))) := by
    intro t hts htc
    cases hrev : e.isReversed
    · have hs1 : (playBody now e t).store = s.store := by
        rw [playBody_some now e t ref htc]
        simp [hrev, hts]
      exact ⟨by rw [hs1], fun hcontra => by simp [hrev] at hcontra⟩
    · have hs1 : (playBody now e t).store =
          (s.store ++ [s.store.getD ref emptyData]).set s.store.length
            (reverseChannels (s.store.getD ref emptyData)) := by
        rw [playBody_some now e t ref htc]
        simp [hrev, hts]
      have hs2 : (playBody now e t).sourceNode = some
          { bufferRef := s.store.length, detune := e.pitch,
            sessionId := t.nextSessionId, halted := false } := by
        rw [playBody_some now e t ref htc]
        simp [hrev, hts]
      refine ⟨?_, fun _ => ⟨_, hs2, Nat.ne_of_gt href, ?_⟩⟩
      · rw [hs1]
        exact clone_set_preserves s.store _ _ ref href
      · rw [hs1]
        exact clone_set_self s.store _ _
  have hexp : ∀ st r2, exportSourceBuffer s e = Except.ok (st, r2) →
      st[ref]? = s.store[ref]? := by
    intro st r2 hok
    cases hrev : e.isReversed <;>
      simp [exportSourceBuffer, hcur, hrev, cloneBuffer] at hok
    · rw [← hok.1]
    · rw [← hok.1]
      exact List.getElem?_append_left href
  cases hp : s.isPlaying
  · rw [play_of_not_playing now e s hp]
    obtain ⟨ha, hb⟩ := key s rfl hcur
    exact ⟨ha, hexp, hb⟩
  · rw [play_of_playing now e s hp]
    obtain ⟨ha, hb⟩ := key (stop s) (stop_store s) (by rw [stop_currentBuffer s, hcur])
    exact ⟨ha, hexp, hb⟩

/-- Witness for C7: a loaded engine played with the reversal flag set. -/
theorem c7_reversal_nonmutating_witness :
    (play 0 reversedEffects sLoaded).store[0]? = sLoaded.store[0]? ∧
    (∀ st r2, exportSourceBuffer sLoaded reversedEffects = Except.ok (st, r2) →
      st[0]? = sLoaded.store[0]?) ∧
    (reversedEffects.isReversed = true →
      ∃ n, (play 0 reversedEffects sLoaded).sourceNode = some n ∧ n.bufferRef ≠ 0 ∧
        (play 0 reversedEffects sLoaded).store[n.bufferRef]? =
          some (reverseChannels (sLoaded.store.getD 0 emptyData))) :=
  c7_reversal_nonmutating sLoaded 0 rfl (by decide) 0 reversedEffects

/-! ## Reachability invariant of the event model

`invReach` is preserved by every event, holds at `initState`, and for an
engine that has not loaded a buffer it implies the `inv` guard of C9 — so
that guard only excludes unreachable states. -/

lemma nodup_enqueue {pending fired : List Nat} {sid : Nat}
    (h : (pending ++ fired).Nodup) (h1 : sid ∉ pending) (h2 : sid ∉ fired) :
    ((pending ++ [sid]) ++ fired).Nodup := by
  have heq : (pending ++ [sid]) ++ fired = pending ++ sid :: fired := by simp
  rw [heq, List.nodup_middle, List.nodup_cons]
  exact ⟨by simp [h1, h2], h⟩

lemma nodup_deliver {rest fired : List Nat} {sid : Nat}
    (h : ((sid :: rest) ++ fired).Nodup) : (rest ++ sid :: fired).Nodup := by
  rw [List.cons_append, List.nodup_cons] at h
  rw [List.nodup_middle, List.nodup_cons]
  exact h

lemma invReach_init : invReach initState := by
  simp [invReach, initState]

lemma invReach_load (b : AudioData) (s : EngineState) (h : invReach s) :
    invReach (loadFile b s) := by
  obtain ⟨i1, i2, i3, i4, i5⟩ := h
  exact ⟨i1, i2, i3, i4, fun hc => by simp [loadFile] at hc⟩

lemma invReach_stop (s : EngineState) (h : invReach s) : invReach (stop s) := by
  obtain ⟨i1, i2, i3, i4, i5⟩ := h
  rcases hsn : s.sourceNode with _ | n
  · have heq : stop s = { s with pauseTime := 0, isPlaying := false } := by
      simp [stop, hsn]
    rw [heq]
    refine ⟨i1, i2, by simp [hsn], fun hpl => by simp at hpl, ?_⟩
    intro hc
    exact ⟨rfl, hsn, (i5 hc).2.2⟩
  · cases hh : n.halted
    · have heq : stop s = { s with sourceNode := some { n with halted := true }, pendingEnded := s.pendingEnded ++ [n.sessionId], pauseTime := 0, isPlaying := false } := by
        simp [stop, haltNode, hsn, hh]
      simp only [hsn] at i3
      obtain ⟨hbound, hfresh⟩ := i3
      obtain ⟨hq1, hq2⟩ := hfresh hh
      rw [heq]
      refine ⟨nodup_enqueue i1 hq1 hq2, ?_,
        ⟨hbound, fun hcontra => by simp at hcontra⟩, fun hpl => by simp at hpl, ?_⟩
      · intro j hj
        simp only [List.mem_append, List.mem_singleton] at hj
        rcases hj with (hj | rfl) | hj
        · exact i2 j (List.mem_append_left _ hj)
        · exact hbound
        · exact i2 j (List.mem_append_right _ hj)
      · intro hc
        have h2 := (i5 hc).2.1
        rw [hsn] at h2
        exact Option.noConfusion h2
    · have heq : stop s = { s with pauseTime := 0, isPlaying := false } := by
        simp [stop, haltNode, hsn, hh]
      simp only [hsn] at i3
      rw [heq]
      refine ⟨i1, i2, by simp only [hsn]; exact i3, fun hpl => by simp at hpl, ?_⟩
      intro hc
      have h2 := (i5 hc).2.1
      rw [hsn] at h2
      exact Option.noConfusion h2

lemma invReach_playBody (now : ℚ) (e : AudioEffects) (s : EngineState)
    (h : invReach s) : invReach (playBody now e s) := by
  obtain ⟨i1, i2, i3, i4, i5⟩ := h
  rcases hcb : s.currentBuffer with _ | ref
  · rw [playBody_none now e s hcb]
    exact ⟨i1, i2, i3, i4, i5⟩
  · rw [playBody_some now e s ref hcb]
    refine ⟨i1, fun j hj => Nat.lt_succ_of_lt (i2 j hj),
      ⟨Nat.lt_succ_self _, fun _ => ⟨?_, ?_⟩⟩, fun _ => by simp, ?_⟩
    · intro hmem
      exact absurd (i2 _ (List.mem_append_left _ hmem)) (lt_irrefl _)
    · intro hmem
      exact absurd (i2 _ (List.mem_append_right _ hmem)) (lt_irrefl _)
    · intro hc
      simp [hcb] at hc

lemma invReach_play (now : ℚ) (e : AudioEffects) (s : EngineState)
    (h : invReach s) : invReach (play now e s) := by
  cases hp : s.isPlaying
  · rw [play_of_not_playing now e s hp]
    exact invReach_playBody now e s h
  · rw [play_of_playing now e s hp]
    exact invReach_playBody now e (stop s) (invReach_stop s h)

lemma invReach_pause (now : ℚ) (s : EngineState) (h : invReach s) :
    invReach (pause now s) := by
  obtain ⟨i1, i2, i3, i4, i5⟩ := h
  rcases hsn : s.sourceNode with _ | n
  · rw [show pause now s = s by simp [pause, hsn]]
    exact ⟨i1, i2, i3, i4, i5⟩
  · cases hp : s.isPlaying
    · rw [show pause now s = s by simp [pause, hsn, hp]]
      exact ⟨i1, i2, i3, i4, i5⟩
    · cases hh : n.halted
      · simp only [hsn] at i3
        obtain ⟨hbound, hfresh⟩ := i3
        obtain ⟨hq1, hq2⟩ := hfresh hh
        rw [pause_running now s n hsn hp hh]
        refine ⟨nodup_enqueue i1 hq1 hq2, ?_,
          ⟨hbound, fun hcontra => by simp at hcontra⟩, fun hpl => by simp at hpl, ?_⟩
        · intro j hj
          simp only [List.mem_append, List.mem_singleton] at hj
          rcases hj with (hj | rfl) | hj
          · exact i2 j (List.mem_append_left _ hj)
          · exact hbound
          · exact i2 j (List.mem_append_right _ hj)
        · intro hc
          have h2 := (i5 hc).2.1
          rw [hsn] at h2
          exact Option.noConfusion h2
      · rw [show pause now s = s by simp [pause, hsn, hp, haltNode, hh]]
        exact ⟨i1, i2, i3, i4, i5⟩

lemma invReach_naturalEnd (s : EngineState) (h : invReach s) :
    invReach (naturalEnd s) := by
  obtain ⟨i1, i2, i3, i4, i5⟩ := h
  rcases hsn : s.sourceNode with _ | n
  · rw [show naturalEnd s = s by simp [naturalEnd, hsn]]
    exact ⟨i1, i2, i3, i4, i5⟩
  · cases hp : s.isPlaying
    · rw [show naturalEnd s = s by simp [naturalEnd, hsn, hp]]
      exact ⟨i1, i2, i3, i4, i5⟩
    · cases hh : n.halted
      · simp only [hsn] at i3
        obtain ⟨hbound, hfresh⟩ := i3
        obtain ⟨hq1, hq2⟩ := hfresh hh
        have heq : naturalEnd s = { s with sourceNode := some { n with halted := true }, pendingEnded := s.pendingEnded ++ [n.sessionId] } := by
          simp [naturalEnd, hsn, hp, hh]
        rw [heq]
        refine ⟨nodup_enqueue i1 hq1 hq2, ?_,
          ⟨hbound, fun hcontra => by simp at hcontra⟩, fun _ => by simp, ?_⟩
        · intro j hj
          simp only [List.mem_append, List.mem_singleton] at hj
          rcases hj with (hj | rfl) | hj
          · exact i2 j (List.mem_append_left _ hj)
          · exact hbound
          · exact i2 j (List.mem_append_right _ hj)
        · intro hc
          have h2 := (i5 hc).2.1
          rw [hsn] at h2
          exact Option.noConfusion h2
      · rw [show naturalEnd s = s by simp [naturalEnd, hsn, hh]]
        exact ⟨i1, i2, i3, i4, i5⟩

lemma invReach_deliverEnded (s : EngineState) (h : invReach s) :
    invReach (deliverEnded s) := by
  obtain ⟨i1, i2, i3, i4, i5⟩ := h
  rcases hpe : s.pendingEnded with _ | ⟨sid, rest⟩
  · rw [show deliverEnded s = s by simp [deliverEnded, hpe]]
    exact ⟨i1, i2, i3, i4, i5⟩
  · have heq : deliverEnded s = { s with isPlaying := false, pauseTime := 0, pendingEnded := rest, endedFired := sid :: s.endedFired } := by
      simp [deliverEnded, hpe]
    rw [heq]
    rw [hpe] at i1 i2
    refine ⟨nodup_deliver i1, ?_, ?_, fun hpl => by simp at hpl, ?_⟩
    · intro j hj
      apply i2
      simp only [List.cons_append, List.mem_cons, List.mem_append] at hj ⊢
      tauto
    · rcases hsn : s.sourceNode with _ | n
      · simp [hsn]
      · simp only [hsn] at i3 ⊢
        obtain ⟨hbound, hfresh⟩ := i3
        refine ⟨hbound, fun hunh => ?_⟩
        obtain ⟨hq1, hq2⟩ := hfresh hunh
        rw [hpe] at hq1
        constructor
        · intro hmem
          exact hq1 (List.mem_cons_of_mem _ hmem)
        · intro hmem
          rcases List.mem_cons.mp hmem with heq2 | hmem2
          · exact hq1 (by rw [heq2]; exact List.mem_cons_self _ _)
          · exact hq2 hmem2
    · intro hc
      have h3 := (i5 hc).2.2
      rw [hpe] at h3
      exact List.noConfusion h3

lemma invReach_step (e : Event) (s : EngineState) (h : invReach s) :
    invReach (step e s) := by
  cases e with
  | load b => exact invReach_load b s h
  | play now effects => exact invReach_play now effects s h
  | pause now => exact invReach_pause now s h
  | stop => exact invReach_stop s h
  | naturalEnd => exact invReach_naturalEnd s h
  | deliverEnded => exact invReach_deliverEnded s h

lemma invReach_run : ∀ (es : List Event) (s : EngineState),
    invReach s → invReach (run es s)
  | [], _, h => h
  | e :: es, s, h => invReach_run es (step e s) (invReach_step e s h)

lemma invReach_unloaded_inv (s : EngineState) (h : invReach s)
    (hnone : s.currentBuffer = none) : inv s := by
  obtain ⟨i1, i2, i3, i4, i5⟩ := h
  obtain ⟨hp, hn, hpend⟩ := i5 hnone
  refine ⟨(List.nodup_append.mp i1).2.1,
    fun j hj => i2 j (List.mem_append_right _ hj), ?_, ?_, fun _ => hp⟩
  · simp [hn]
  · intro hpl
    rw [hp] at hpl
    exact Bool.noConfusion hpl

/-! ## Claim C4 -/

/-- C4 (the code diverges from the claim): the host delivers the `ended`
event of the node that `pause` halted at line 133, and the armed lines
124-128 handler then resets the frozen offset to zero before the resume.
Playing at time 1 and pausing at 1 + 2 freezes offset 2 and schedules
session 0's `ended` event; its delivery zeroes `pauseTime` and runs the
caller's completion callback; resuming at 9 therefore restarts from offset
0, and pausing at 9 + 3 leaves the cumulative offset at 3 = t2 — not
t1 + t2 = 2 + 3 as the claim (and the spec's clear intent) requires. -/
theorem c4_pause_offset_lost :
    (pause (1 + 2) (play 1 restEffects sLoaded)).pauseTime = 2 ∧
    (pause (1 + 2) (play 1 restEffects sLoaded)).pendingEnded = [0] ∧
    (deliverEnded (pause (1 + 2) (play 1 restEffects sLoaded))).pauseTime = 0 ∧
    (deliverEnded (pause (1 + 2) (play 1 restEffects sLoaded))).endedFired = [0] ∧
    (pause (9 + 3) (play 9 restEffects
      (deliverEnded (pause (1 + 2) (play 1 restEffects sLoaded))))).pauseTime = 3 ∧
    (3 : ℚ) ≠ 2 + 3 := by
  refine ⟨?_, rfl, rfl, rfl, ?_, by norm_num⟩
  · norm_num [pause, play, playBody, createSource, stop, haltNode, sLoaded,
      loadFile, initState, restEffects]
  · norm_num [pause, play, playBody, createSource, stop, haltNode, deliverEnded,
      sLoaded, loadFile, initState, restEffects]

/-! ## Claim C3 -/

/-- C3 (the code diverges from the claim): the host dispatches `ended` when
`stop()` halts the source and the lines 124-128 handler is never detached,
so the caller's completion callback runs as a result of an explicit stop;
and after `play` twice in succession the first session's callback still
fires. Concretely: stopping the playing engine schedules session 0's `ended`
event and its delivery records the firing; after play-play the implicit stop
leaves session 0's event pending, and its delivery fires the first session's
callback and clears the running flag even though session 1's unhalted node
is still the current source. -/
theorem c3_completion_fires_on_stop :
    (stop (play 0 restEffects sLoaded)).pendingEnded = [0] ∧
    (deliverEnded (stop (play 0 restEffects sLoaded))).endedFired = [0] ∧
    (play 1 restEffects (play 0 restEffects sLoaded)).pendingEnded = [0] ∧
    (deliverEnded (play 1 restEffects (play 0 restEffects sLoaded))).endedFired = [0] ∧
    (deliverEnded (play 1 restEffects (play 0 restEffects sLoaded))).isPlaying = false ∧
    (∃ n, (deliverEnded (play 1 restEffects (play 0 restEffects sLoaded))).sourceNode =
      some n ∧ n.sessionId = 1 ∧ n.halted = false) :=
  ⟨rfl, rfl, rfl, rfl, rfl, ⟨_, rfl, rfl, rfl⟩⟩

end Reson8
